import Mathlib

/-!
Shallow embedding of the FlowBoard client (a project-management dashboard
over a hosted relational backend).  The data-access layer
(`services/projectService.ts`), the Kanban board filtering and drag-and-drop
(`components/KanbanBoard.tsx`), the project-detail realtime task handler
(`pages/ProjectDetail.tsx`) and the team-invitation accept/decline flow
(`pages/TeamInvitationPage`, `pages/TeamPage.tsx`) are modelled as pure
functions over an explicit backend state.  A fallible backend call takes an
`Option String` oracle: `none` means the call succeeded, `some m` means the
backend answered with an error whose message is `m` (a single failed
statement leaves the backend state unchanged).  Backend-generated columns
(row ids, timestamps, tokens) are supplied by a `GenCols` oracle.  User-visible
and console output is recorded as a list of `Event`s.
-/

namespace FlowBoard

/-- Task status: the fixed four-state enumeration of `Task['status']`. -/
inductive Status where
  | todo
  | inProgress
  | review
  | completed
deriving DecidableEq, Repr

/-- Task priority: `'low' | 'medium' | 'high'`. -/
inductive Priority where
  | low
  | medium
  | high
deriving DecidableEq, Repr

/-- The string the UI uses for a priority (the values of `allPriorities`). -/
def priorityName : Priority → String
  | .low => "low"
  | .medium => "medium"
  | .high => "high"

/-- Row of the `projects` table (interface `Project`). -/
structure Project where
  id : String
  name : String
  description : Option String
  user_id : String
  created_at : String
  updated_at : String
deriving DecidableEq, Repr

/-- Row of the `tasks` table (interface `Task`). -/
structure Task where
  id : String
  title : String
  description : Option String
  status : Status
  priority : Priority
  due_date : Option String
  project_id : String
  user_id : String
  created_at : String
  updated_at : String
deriving DecidableEq, Repr

/-- Row of the `teams` table (interface `Team`). -/
structure Team where
  id : String
  name : String
  description : Option String
  created_by : String
  created_at : String
  updated_at : String
deriving DecidableEq, Repr

/-- Row of the `team_members` table (interface `TeamMember`). -/
structure TeamMember where
  id : String
  team_id : String
  user_id : String
  role : String
  created_at : String
deriving DecidableEq, Repr

/-- Row of the `user_profiles` table (interface `UserProfile`). -/
structure UserProfile where
  id : String
  username : Option String
  full_name : Option String
  avatar_url : Option String
  job_title : Option String
  bio : Option String
  created_at : String
  updated_at : String
deriving DecidableEq, Repr

/-- Row of the `tags` table (interface `Tag`). -/
structure Tag where
  id : String
  name : String
  color : String
  project_id : Option String
  created_by : String
  created_at : String
deriving DecidableEq, Repr

/-- Row of the `task_tags` table (interface `TaskTag`). -/
structure TaskTag where
  id : String
  task_id : String
  tag_id : String
  created_at : String
deriving DecidableEq, Repr

/-- Row of the `comments` table (interface `Comment`). -/
structure Comment where
  id : String
  task_id : String
  user_id : String
  content : String
  created_at : String
  updated_at : String
deriving DecidableEq, Repr

/-- Row of the `project_members` table (shape of the `addProjectMember`
insert; the table has no interface in `projectService.ts`). -/
structure ProjectMember where
  id : String
  project_id : String
  user_id : String
  role : String
deriving DecidableEq, Repr

/-- Invitation status (`pending`/`accepted`/`declined` per the spec's data
model; the page code reads and writes the same three string values). -/
inductive InvStatus where
  | pending
  | accepted
  | declined
deriving DecidableEq, Repr

/-- Row of the `team_invitations` table: the columns the pages read
(`TeamInvitationPage` interface and `TeamPage.tsx` inserts) plus the
acceptance timestamp written by `handleAccept`. -/
structure Invitation where
  id : String
  team_id : String
  email : String
  role : String
  invited_by : String
  status : InvStatus
  accepted_at : Option String
  token : String
deriving DecidableEq, Repr

/-- Observable output of a handler: toast notifications (user-visible),
console logging (not user-visible) and route navigation. -/
inductive Event where
  | toastError (msg : String)
  | toastSuccess (msg : String)
  | toastInfo (msg : String)
  | consoleError (msg : String)
  | navigate (path : String)
deriving DecidableEq, Repr

/-- Is the event a user-visible toast notification? -/
def Event.isToast : Event → Bool
  | .toastError _ => true
  | .toastSuccess _ => true
  | .toastInfo _ => true
  | .consoleError _ => false
  | .navigate _ => false

/-- The backend state: one list of rows per table the client touches. -/
structure DB where
  projects : List Project
  tasks : List Task
  teams : List Team
  team_members : List TeamMember
  team_invitations : List Invitation
  user_profiles : List UserProfile
  tags : List Tag
  task_tags : List TaskTag
  comments : List Comment
  project_members : List ProjectMember
deriving DecidableEq, Repr

/-- Result of one data-access call: the backend state afterwards, the
events emitted, and the value returned to the caller. -/
structure SvcResult (α : Type) where
  db : DB
  events : List Event
  result : α
deriving DecidableEq, Repr

/-- Backend-generated columns of an inserted row. -/
structure GenCols where
  id : String
  created_at : String
  updated_at : String
  token : String
deriving DecidableEq, Repr

/-! ### Backend row ordering

Each `select` in the service layer carries an `.order(column, direction)`
clause; the backend returns the rows sorted accordingly.  ISO-8601
timestamps compare chronologically as strings, so `created_at` order is
string order. -/

/-- Projects ordered with the most recent `created_at` first
(`.order('created_at', { ascending: false })`). -/
def createdDescP (a b : Project) : Prop := b.created_at ≤ a.created_at

instance : DecidableRel createdDescP :=
  fun a b => inferInstanceAs (Decidable (b.created_at ≤ a.created_at))

instance : IsTotal Project createdDescP :=
  ⟨fun a b => le_total b.created_at a.created_at⟩

instance : IsTrans Project createdDescP :=
  ⟨fun _ _ _ hab hbc => le_trans hbc hab⟩

/-- Tasks ordered with the most recent `created_at` first. -/
def createdDescT (a b : Task) : Prop := b.created_at ≤ a.created_at

instance : DecidableRel createdDescT :=
  fun a b => inferInstanceAs (Decidable (b.created_at ≤ a.created_at))

/-- Teams ordered with the most recent `created_at` first. -/
def createdDescTeam (a b : Team) : Prop := b.created_at ≤ a.created_at

instance : DecidableRel createdDescTeam :=
  fun a b => inferInstanceAs (Decidable (b.created_at ≤ a.created_at))

/-- Tags ordered by `name` ascending (`.order('name', { ascending: true })`). -/
def nameAscTag (a b : Tag) : Prop := a.name ≤ b.name

instance : DecidableRel nameAscTag :=
  fun a b => inferInstanceAs (Decidable (a.name ≤ b.name))

/-- Comments ordered by `created_at` ascending. -/
def createdAscC (a b : Comment) : Prop := a.created_at ≤ b.created_at

instance : DecidableRel createdAscC :=
  fun a b => inferInstanceAs (Decidable (a.created_at ≤ b.created_at))

/-! ### Data-access layer (`services/projectService.ts`)

Each function mirrors one exported service function: the same backend
statement on success, and the `catch` block's notification plus the
null/empty sentinel on failure. -/

/-- `fetchProjects`: select all projects, newest first; on failure toast
`Error fetching projects: …` and return `[]`. -/
def fetchProjects (db : DB) (err : Option String) : SvcResult (List Project) :=
  match err with
  | some m => ⟨db, [.toastError ("Error fetching projects: " ++ m)], []⟩
  | none => ⟨db, [], List.insertionSort createdDescP db.projects⟩

/-- `createProject`: insert a project row (id/timestamps backend-generated),
toast success and return the row; on failure toast and return `none`. -/
def createProject (db : DB) (name : String) (description : Option String)
    (user_id : String) (gen : GenCols) (err : Option String) :
    SvcResult (Option Project) :=
  match err with
  | some m => ⟨db, [.toastError ("Error creating project: " ++ m)], none⟩
  | none =>
    let row : Project :=
      ⟨gen.id, name, description, user_id, gen.created_at, gen.updated_at⟩
    ⟨{ db with projects := row :: db.projects },
      [.toastSuccess "Project created successfully!"], some row⟩

/-- A `Partial<Project>` as the edit dialog issues it (name, description). -/
structure ProjectPatch where
  name : Option String
  description : Option (Option String)
deriving DecidableEq, Repr

/-- Apply a partial project update to a row. -/
def applyProjectPatch (p : ProjectPatch) (row : Project) : Project :=
  { row with
    name := p.name.getD row.name,
    description := p.description.getD row.description }

/-- `updateProject`: update the row whose id matches and return it; on
failure toast and return `none`. -/
def updateProject (db : DB) (id : String) (updates : ProjectPatch)
    (err : Option String) : SvcResult (Option Project) :=
  match err with
  | some m => ⟨db, [.toastError ("Error updating project: " ++ m)], none⟩
  | none =>
    let rows := db.projects.map
      (fun p => if p.id == id then applyProjectPatch updates p else p)
    ⟨{ db with projects := rows },
      [.toastSuccess "Project updated successfully!"],
      rows.find? (fun p => p.id == id)⟩

/-- `deleteProject`: first delete every task row of the project, and only
then the project row; either failing statement is caught with
`Error deleting project: …` and `false`. -/
def deleteProject (db : DB) (id : String)
    (tasksErr projErr : Option String) : SvcResult Bool :=
  match tasksErr with
  | some m => ⟨db, [.toastError ("Error deleting project: " ++ m)], false⟩
  | none =>
    let db1 := { db with tasks := db.tasks.filter (fun t => t.project_id != id) }
    match projErr with
    | some m => ⟨db1, [.toastError ("Error deleting project: " ++ m)], false⟩
    | none =>
      ⟨{ db1 with projects := db1.projects.filter (fun p => p.id != id) },
        [.toastSuccess "Project deleted successfully!"], true⟩

/-- `fetchTasks`: select the tasks whose `project_id` matches, newest first;
on failure toast and return `[]`. -/
def fetchTasks (db : DB) (projectId : String) (err : Option String) :
    SvcResult (List Task) :=
  match err with
  | some m => ⟨db, [.toastError ("Error fetching tasks: " ++ m)], []⟩
  | none =>
    ⟨db, [],
      List.insertionSort createdDescT
        (db.tasks.filter (fun t => t.project_id == projectId))⟩

/-- `createTask`: insert a task row and toast success; on failure toast and
return `none`. -/
def createTask (db : DB) (title : String) (description : Option String)
    (status : Status) (priority : Priority) (due_date : Option String)
    (project_id user_id : String) (gen : GenCols) (err : Option String) :
    SvcResult (Option Task) :=
  match err with
  | some m => ⟨db, [.toastError ("Error creating task: " ++ m)], none⟩
  | none =>
    let row : Task :=
      ⟨gen.id, title, description, status, priority, due_date, project_id,
        user_id, gen.created_at, gen.updated_at⟩
    ⟨{ db with tasks := row :: db.tasks },
      [.toastSuccess "Task created successfully!"], some row⟩

/-- A `Partial<Task>` (the content columns callers patch). -/
structure TaskPatch where
  title : Option String
  description : Option (Option String)
  status : Option Status
  priority : Option Priority
  due_date : Option (Option String)
deriving DecidableEq, Repr

/-- Apply a partial task update to a row. -/
def applyTaskPatch (p : TaskPatch) (t : Task) : Task :=
  { t with
    title := p.title.getD t.title,
    description := p.description.getD t.description,
    status := p.status.getD t.status,
    priority := p.priority.getD t.priority,
    due_date := p.due_date.getD t.due_date }

/-- `updateTask`: update the row whose id matches and return it; on failure
toast and return `none`. -/
def updateTask (db : DB) (id : String) (updates : TaskPatch)
    (err : Option String) : SvcResult (Option Task) :=
  match err with
  | some m => ⟨db, [.toastError ("Error updating task: " ++ m)], none⟩
  | none =>
    let rows := db.tasks.map
      (fun t => if t.id == id then applyTaskPatch updates t else t)
    ⟨{ db with tasks := rows },
      [.toastSuccess "Task updated successfully!"],
      rows.find? (fun t => t.id == id)⟩

/-- `updateTaskStatus`: delegates to `updateTask` with a `{ status }` patch. -/
def updateTaskStatus (db : DB) (id : String) (status : Status)
    (err : Option String) : SvcResult (Option Task) :=
  updateTask db id ⟨none, none, some status, none, none⟩ err

/-- `deleteTask`: delete the row whose id matches; on failure toast and
return `false`. -/
def deleteTask (db : DB) (id : String) (err : Option String) : SvcResult Bool :=
  match err with
  | some m => ⟨db, [.toastError ("Error deleting task: " ++ m)], false⟩
  | none =>
    ⟨{ db with tasks := db.tasks.filter (fun t => t.id != id) },
      [.toastSuccess "Task deleted successfully!"], true⟩

/-- `fetchTeams`: select all teams, newest first; on failure toast and
return `[]`. -/
def fetchTeams (db : DB) (err : Option String) : SvcResult (List Team) :=
  match err with
  | some m => ⟨db, [.toastError ("Error fetching teams: " ++ m)], []⟩
  | none => ⟨db, [], List.insertionSort createdDescTeam db.teams⟩

/-- `createTeam`: insert a team row and toast success; on failure toast and
return `none`. -/
def createTeam (db : DB) (name : String) (description : Option String)
    (created_by : String) (gen : GenCols) (err : Option String) :
    SvcResult (Option Team) :=
  match err with
  | some m => ⟨db, [.toastError ("Error creating team: " ++ m)], none⟩
  | none =>
    let row : Team :=
      ⟨gen.id, name, description, created_by, gen.created_at, gen.updated_at⟩
    ⟨{ db with teams := row :: db.teams },
      [.toastSuccess "Team created successfully!"], some row⟩

/-- `addTeamMember`: insert a membership row and toast success; on failure
toast and return `none`. -/
def addTeamMember (db : DB) (team_id user_id role : String) (gen : GenCols)
    (err : Option String) : SvcResult (Option TeamMember) :=
  match err with
  | some m => ⟨db, [.toastError ("Error adding team member: " ++ m)], none⟩
  | none =>
    let row : TeamMember := ⟨gen.id, team_id, user_id, role, gen.created_at⟩
    ⟨{ db with team_members := row :: db.team_members },
      [.toastSuccess "Team member added successfully!"], some row⟩

/-- `fetchUserProfile`: select the single profile whose id matches; on
failure it logs `Error fetching user profile: …` to the console (no toast)
and returns `none`. -/
def fetchUserProfile (db : DB) (userId : String) (err : Option String) :
    SvcResult (Option UserProfile) :=
  match err with
  | some m => ⟨db, [.consoleError ("Error fetching user profile: " ++ m)], none⟩
  | none => ⟨db, [], db.user_profiles.find? (fun p => p.id == userId)⟩

/-- A `Partial<UserProfile>` (the columns the profile page edits). -/
structure UserProfilePatch where
  username : Option (Option String)
  full_name : Option (Option String)
  avatar_url : Option (Option String)
  job_title : Option (Option String)
  bio : Option (Option String)
deriving DecidableEq, Repr

/-- Apply a partial profile update to a row. -/
def applyUserProfilePatch (p : UserProfilePatch) (row : UserProfile) :
    UserProfile :=
  { row with
    username := p.username.getD row.username,
    full_name := p.full_name.getD row.full_name,
    avatar_url := p.avatar_url.getD row.avatar_url,
    job_title := p.job_title.getD row.job_title,
    bio := p.bio.getD row.bio }

/-- `updateUserProfile`: update the row whose id matches and return it; on
failure toast `Error updating profile: …` and return `none`. -/
def updateUserProfile (db : DB) (userId : String) (updates : UserProfilePatch)
    (err : Option String) : SvcResult (Option UserProfile) :=
  match err with
  | some m => ⟨db, [.toastError ("Error updating profile: " ++ m)], none⟩
  | none =>
    let rows := db.user_profiles.map
      (fun p => if p.id == userId then applyUserProfilePatch updates p else p)
    ⟨{ db with user_profiles := rows },
      [.toastSuccess "Profile updated successfully!"],
      rows.find? (fun p => p.id == userId)⟩

/-- `fetchTags`: select the tags of a project ordered by name; on failure
toast and return `[]`. -/
def fetchTags (db : DB) (projectId : String) (err : Option String) :
    SvcResult (List Tag) :=
  match err with
  | some m => ⟨db, [.toastError ("Error fetching tags: " ++ m)], []⟩
  | none =>
    ⟨db, [],
      List.insertionSort nameAscTag
        (db.tags.filter (fun t => t.project_id == some projectId))⟩

/-- `createTag`: insert a tag row and toast success; on failure toast and
return `none`. -/
def createTag (db : DB) (name color : String) (project_id : Option String)
    (created_by : String) (gen : GenCols) (err : Option String) :
    SvcResult (Option Tag) :=
  match err with
  | some m => ⟨db, [.toastError ("Error creating tag: " ++ m)], none⟩
  | none =>
    let row : Tag := ⟨gen.id, name, color, project_id, created_by, gen.created_at⟩
    ⟨{ db with tags := row :: db.tags },
      [.toastSuccess "Tag created successfully!"], some row⟩

/-- `addTagToTask`: insert a `task_tags` row (no toast on success); on
failure toast and return `none`. -/
def addTagToTask (db : DB) (taskId tagId : String) (gen : GenCols)
    (err : Option String) : SvcResult (Option TaskTag) :=
  match err with
  | some m => ⟨db, [.toastError ("Error adding tag to task: " ++ m)], none⟩
  | none =>
    let row : TaskTag := ⟨gen.id, taskId, tagId, gen.created_at⟩
    ⟨{ db with task_tags := row :: db.task_tags }, [], some row⟩

/-- `removeTagFromTask`: delete the `task_tags` rows matching both ids; on
failure toast and return `false`. -/
def removeTagFromTask (db : DB) (taskId tagId : String) (err : Option String) :
    SvcResult Bool :=
  match err with
  | some m => ⟨db, [.toastError ("Error removing tag from task: " ++ m)], false⟩
  | none =>
    ⟨{ db with task_tags :=
        db.task_tags.filter (fun r => !(r.task_id == taskId && r.tag_id == tagId)) },
      [], true⟩

/-- `fetchComments`: select the comments of a task, oldest first; on failure
toast and return `[]`. -/
def fetchComments (db : DB) (taskId : String) (err : Option String) :
    SvcResult (List Comment) :=
  match err with
  | some m => ⟨db, [.toastError ("Error fetching comments: " ++ m)], []⟩
  | none =>
    ⟨db, [],
      List.insertionSort createdAscC
        (db.comments.filter (fun c => c.task_id == taskId))⟩

/-- `createComment`: insert a comment row (no toast on success); on failure
toast and return `none`. -/
def createComment (db : DB) (task_id user_id content : String) (gen : GenCols)
    (err : Option String) : SvcResult (Option Comment) :=
  match err with
  | some m => ⟨db, [.toastError ("Error creating comment: " ++ m)], none⟩
  | none =>
    let row : Comment :=
      ⟨gen.id, task_id, user_id, content, gen.created_at, gen.updated_at⟩
    ⟨{ db with comments := row :: db.comments }, [], some row⟩

/-- `addProjectMember`: insert a `project_members` row and toast success; on
failure toast and return `false`. -/
def addProjectMember (db : DB) (projectId userId role : String) (gen : GenCols)
    (err : Option String) : SvcResult Bool :=
  match err with
  | some m => ⟨db, [.toastError ("Error adding member to project: " ++ m)], false⟩
  | none =>
    let row : ProjectMember := ⟨gen.id, projectId, userId, role⟩
    ⟨{ db with project_members := row :: db.project_members },
      [.toastSuccess "Member added to project successfully!"], true⟩

/-- `fetchProjectMembers`: select the membership rows of a project (the
joined `user_profiles` projection is elided; the rows themselves are
returned); on failure toast and return `[]`. -/
def fetchProjectMembers (db : DB) (projectId : String) (err : Option String) :
    SvcResult (List ProjectMember) :=
  match err with
  | some m => ⟨db, [.toastError ("Error fetching project members: " ++ m)], []⟩
  | none => ⟨db, [], db.project_members.filter (fun r => r.project_id == projectId)⟩

/-! ### Kanban board (`components/KanbanBoard.tsx`) -/

/-- Boolean list-prefix test (helper for the JS `String.prototype.includes`). -/
def isPrefixB : List Char → List Char → Bool
  | [], _ => true
  | _ :: _, [] => false
  | a :: as, b :: bs => a == b && isPrefixB as bs

/-- Does `sub` occur contiguously in the list? -/
def containsSub (sub : List Char) : List Char → Bool
  | [] => sub.isEmpty
  | c :: rest => isPrefixB sub (c :: rest) || containsSub sub rest

/-- JS `s.includes(sub)`: `sub` occurs as a substring of `s`. -/
def strIncludes (s sub : String) : Bool := containsSub sub.data s.data

/-- The search-term clause of the `filteredTasks` predicate: an empty term
matches everything, else a case-insensitive substring match on the title or
the (possibly null) description. -/
def matchesSearch (searchTerm : String) (t : Task) : Bool :=
  searchTerm == "" ||
  strIncludes t.title.toLower searchTerm.toLower ||
  (match t.description with
   | some d => strIncludes d.toLower searchTerm.toLower
   | none => false)

/-- The priority clause of the `filteredTasks` predicate: an empty filter
set matches everything, else the task's priority string must be selected. -/
def matchesPriority (priorityFilters : List String) (t : Task) : Bool :=
  priorityFilters.length == 0 ||
  priorityFilters.contains (priorityName t.priority)

/-- `filteredTasks`: the board's task list filtered by the search term and
the priority filter selection. -/
def filteredTasks (searchTerm : String) (priorityFilters : List String)
    (tasks : List Task) : List Task :=
  tasks.filter (fun t => matchesSearch searchTerm t && matchesPriority priorityFilters t)

/-- The tasks a column renders: `tasks.filter(task => task.status === status)`.
`columnCounts` in the source is the length of this list for each status. -/
def columnTasks (tasks : List Task) (status : Status) : List Task :=
  tasks.filter (fun t => t.status == status)

/-- The parsed drag payload (`JSON.parse` of the transfer data; the handler
consults its `id` and `status` fields). -/
structure DragPayload where
  id : String
  status : Status
deriving DecidableEq, Repr

/-- `handleDrop` of a Kanban column: if transfer data is present and the
dragged task's status differs from the column's, look the task up in the
rendered list and, when found, issue one `updateTaskStatus` call with the
column's status.  The returned list is the calls issued (id, new status). -/
def handleDrop (tasks : List Task) (colStatus : Status)
    (payload : Option DragPayload) : List (String × Status) :=
  match payload with
  | none => []
  | some d =>
    if d.status ≠ colStatus then
      match tasks.find? (fun t => t.id == d.id) with
      | some fullTask => [(fullTask.id, colStatus)]
      | none => []
    else []

/-! ### Project-detail realtime task handler (`pages/ProjectDetail.tsx`) -/

/-- A row-change notification for the `tasks` table, as the subscription
handler consumes it: the new row for INSERT/UPDATE, the old row's id for
DELETE. -/
inductive TaskChange where
  | insert (row : Task)
  | update (row : Task)
  | delete (oldId : String)
deriving DecidableEq, Repr

/-- The subscription handler's local-list mutation: INSERT prepends the new
row, UPDATE replaces every entry whose id matches, DELETE drops every entry
whose id matches. -/
def applyTaskChange (prev : List Task) : TaskChange → List Task
  | .insert row => row :: prev
  | .update row => prev.map (fun t => if t.id == row.id then row else t)
  | .delete oldId => prev.filter (fun t => t.id != oldId)

/-! ### Team invitations (`TeamPage.tsx`, `TeamInvitationPage`) -/

/-- A fresh `team_invitations` row as the two inserts in `TeamPage.tsx`
create it (they set team_id, email, role, invited_by only).

Modelled from the spec: the backend schema (not in the repository) supplies
the remaining columns; per the spec's data model invitations carry a
"status (pending/accepted/declined)" and a backend-issued token, and
`getInvitationLink` reads freshly inserted rows back with
`.eq('status', 'pending')`, so a new row starts `pending` with a null
acceptance timestamp. -/
def newInvitation (team_id email role invited_by : String) (gen : GenCols) :
    Invitation :=
  ⟨gen.id, team_id, email, role, invited_by, .pending, none, gen.token⟩

/-- The `handleAccept` invitation update: set status `accepted` and
`accepted_at` to the current timestamp on the row whose id matches. -/
def acceptUpdate (table : List Invitation) (invId now : String) :
    List Invitation :=
  table.map (fun i =>
    if i.id == invId then { i with status := .accepted, accepted_at := some now }
    else i)

/-- The `handleDecline` invitation update: set status `declined` on the row
whose id matches. -/
def declineUpdate (table : List Invitation) (invId : String) :
    List Invitation :=
  table.map (fun i => if i.id == invId then { i with status := .declined } else i)

/-- One `team_invitations` write the application can issue: an insert from
`TeamPage.tsx`, the accept update, or the decline update. -/
inductive InvWrite where
  | invite (team_id email role invited_by : String) (gen : GenCols)
  | accept (invId now : String)
  | decline (invId : String)
deriving DecidableEq, Repr

/-- Apply one application-issued invitation write to the table. -/
def applyInvWrite (table : List Invitation) : InvWrite → List Invitation
  | .invite team_id email role invited_by gen =>
      newInvitation team_id email role invited_by gen :: table
  | .accept invId now => acceptUpdate table invId now
  | .decline invId => declineUpdate table invId

/-- Apply a sequence of application-issued invitation writes. -/
def applyInvWrites (table : List Invitation) (ws : List InvWrite) :
    List Invitation :=
  ws.foldl applyInvWrite table

/-- Does every invitation with status `accepted` carry a non-null
acceptance timestamp? -/
def acceptedHasTs (table : List Invitation) : Bool :=
  table.all (fun i => i.status != InvStatus.accepted || i.accepted_at.isSome)

/-- The signed-in identity as `useAuth` exposes it (`user.email` can be
absent). -/
structure AuthUser where
  id : String
  email : Option String
deriving DecidableEq, Repr

/-- `handleAccept` of `TeamInvitationPage`: reject when the signed-in email
differs from the invitation's; otherwise insert the team membership, then
update the invitation to accepted with a timestamp; either failing
statement is caught with a console log and an error toast. -/
def handleAccept (db : DB) (user : AuthUser) (inv : Invitation)
    (gen : GenCols) (memberErr updateErr : Option String) (now : String) :
    SvcResult Unit :=
  if user.email ≠ some inv.email then
    ⟨db, [.toastError "This invitation was sent to a different email address"], ()⟩
  else
    match memberErr with
    | some m =>
      ⟨db, [.consoleError ("Error accepting invitation: " ++ m),
        .toastError "There was a problem accepting the invitation"], ()⟩
    | none =>
      let db1 := { db with team_members :=
        (⟨gen.id, inv.team_id, user.id, inv.role, gen.created_at⟩ : TeamMember)
          :: db.team_members }
      match updateErr with
      | some m =>
        ⟨db1, [.consoleError ("Error accepting invitation: " ++ m),
          .toastError "There was a problem accepting the invitation"], ()⟩
      | none =>
        ⟨{ db1 with team_invitations := acceptUpdate db1.team_invitations inv.id now },
          [.toastSuccess "You have successfully joined the team!",
            .navigate "/teams"], ()⟩

/-- `handleDecline` of `TeamInvitationPage`: update the invitation to
declined; a failure is caught with a console log and an error toast. -/
def handleDecline (db : DB) (inv : Invitation) (err : Option String) :
    SvcResult Unit :=
  match err with
  | some m =>
    ⟨db, [.consoleError ("Error declining invitation: " ++ m),
      .toastError "There was a problem declining the invitation"], ()⟩
  | none =>
    ⟨{ db with team_invitations := declineUpdate db.team_invitations inv.id },
      [.toastInfo "Invitation declined", .navigate "/"], ()⟩

/-! ### Concrete fixtures used by witnesses and counterexamples -/

/-- Backend-generated columns of a sample insert. -/
def exGen : GenCols :=
  ⟨"g1", "2025-01-01T00:00:00Z", "2025-01-01T00:00:00Z", "tok9"⟩

/-- A sample project row. -/
def exProject : Project :=
  ⟨"p1", "Website", none, "u1", "2025-01-01T00:00:00Z", "2025-01-01T00:00:00Z"⟩

/-- A sample task row of project `p1`. -/
def exTask : Task :=
  ⟨"t1", "Design", none, .todo, .high, none, "p1", "u1",
    "2025-01-02T00:00:00Z", "2025-01-02T00:00:00Z"⟩

/-- A sample backend state: one project with one task. -/
def exDb : DB := ⟨[exProject], [exTask], [], [], [], [], [], [], [], []⟩

/-- A sample pending invitation addressed to `a@b.com`. -/
def exPendingInv : Invitation :=
  ⟨"i1", "team1", "a@b.com", "member", "u2", .pending, none, "tok"⟩

/-- A signed-in user whose email differs from `exPendingInv`'s. -/
def exUser : AuthUser := ⟨"u9", some "other@x.com"⟩

/-! ### Claims -/

/-- C1: `deleteProject(id)` first deletes every task row whose `project_id`
equals `id` and only on success deletes the project row.  First conjunct: a
failing task-deletion step returns `false` with only the error toast and
leaves the backend untouched (the project deletion is not attempted).
Second conjunct: whenever the project row was present and is gone
afterwards, no task of the project remains, so "project removed while its
tasks remain" is unreachable.  Third conjunct: at a concrete state, a
failure of the second step leaves the tasks deleted and the project row in
place ("tasks removed but the project remains" is reachable). -/
theorem C1_deleteProject_two_step (db : DB) (id m : String)
    (e1 e2 : Option String) :
    deleteProject db id (some m) e2 =
      ⟨db, [Event.toastError ("Error deleting project: " ++ m)], false⟩
    ∧ (db.projects.any (fun p => p.id == id) = true →
        (deleteProject db id e1 e2).db.projects.any (fun p => p.id == id) = true
        ∨ (deleteProject db id e1 e2).db.tasks.all
            (fun t => t.project_id != id) = true)
    ∧ ((deleteProject exDb "p1" none (some "boom")).result = false
        ∧ (deleteProject exDb "p1" none (some "boom")).db.projects = [exProject]
        ∧ (deleteProject exDb "p1" none (some "boom")).db.tasks = []) := by
  refine ⟨rfl, ?_, by decide⟩
  intro h
  cases e1 with
  | some m1 => exact Or.inl h
  | none =>
    have hall : (db.tasks.filter (fun t => t.project_id != id)).all
        (fun t => t.project_id != id) = true :=
      List.all_eq_true.mpr (fun x hx => (List.mem_filter.1 hx).2)
    cases e2 with
    | some m2 => exact Or.inr hall
    | none => exact Or.inr hall

/-- C3: every task in the list returned by `fetchTasks(p)` has its
`project_id` equal to `p` (on failure the list is empty and the property
holds vacuously). -/
theorem C3_fetchTasks_project_id (db : DB) (pid : String) (err : Option String)
    (t : Task) (ht : t ∈ (fetchTasks db pid err).result) : t.project_id = pid := by
  cases err with
  | some m =>
    have ht' : t ∈ ([] : List Task) := ht
    exact absurd ht' (List.not_mem_nil t)
  | none =>
    have ht' : t ∈ List.insertionSort createdDescT
        (db.tasks.filter (fun x => x.project_id == pid)) := ht
    rw [(List.perm_insertionSort createdDescT _).mem_iff] at ht'
    exact eq_of_beq (List.mem_filter.1 ht').2

/-- Witness for C3: the sample task is returned by `fetchTasks` for project
`p1` and indeed carries `project_id = "p1"`. -/
theorem C3_fetchTasks_project_id_witness : exTask.project_id = "p1" :=
  C3_fetchTasks_project_id exDb "p1" none exTask (by decide)

/-- C10: on success, `fetchProjects` returns the project rows ordered by
`created_at` descending (each earlier row's `created_at` is at least the
later row's), and the returned list is a permutation of the stored rows. -/
theorem C10_fetchProjects_ordering (db : DB) :
    List.Sorted createdDescP (fetchProjects db none).result
    ∧ (fetchProjects db none).result.Perm db.projects := by
  constructor
  · exact List.sorted_insertionSort createdDescP db.projects
  · exact List.perm_insertionSort createdDescP db.projects

/-- C2 counterexample: dropping a task card onto the column it is already
in (status `todo` onto the `todo` column) issues no status-update call, so
"exactly one status-update call per drag-and-drop" fails. -/
theorem C2_drop_same_column_no_call :
    (handleDrop [exTask] Status.todo (some ⟨"t1", Status.todo⟩)).length ≠ 1 := by
  decide

/-- C2 (amended): a drag-and-drop onto a column issues at most one
status-update call; it issues exactly one call — with the target column's
status — precisely when the dragged payload's status differs from the
column's and a task with the payload's id is in the rendered list; after
`updateTaskStatus` succeeds, every stored task with the updated id has the
target column's status, which is one of the four statuses. -/
theorem C2_handleDrop_single_update (tasks : List Task) (db : DB)
    (col : Status) (payload : Option DragPayload) (id : String) :
    (handleDrop tasks col payload).length ≤ 1
    ∧ (∀ c ∈ handleDrop tasks col payload, c.2 = col)
    ∧ (∀ d ft, payload = some d → d.status ≠ col →
        tasks.find? (fun t => t.id == d.id) = some ft →
        handleDrop tasks col payload = [(ft.id, col)])
    ∧ (∀ t ∈ (updateTaskStatus db id col none).db.tasks,
        t.id = id → t.status = col)
    ∧ col ∈ [Status.todo, Status.inProgress, Status.review, Status.completed] := by
  refine ⟨?_, ?_, ?_, ?_, ?_⟩
  · rcases payload with _ | d
    · simp [handleDrop]
    · by_cases h : d.status = col
      · simp [handleDrop, h]
      · rcases hf : tasks.find? (fun t => t.id == d.id) with _ | ft
        · simp [handleDrop, h, hf]
        · simp [handleDrop, h, hf]
  · intro c hc
    rcases payload with _ | d
    · simp [handleDrop] at hc
    · by_cases h : d.status = col
      · simp [handleDrop, h] at hc
      · rcases hf : tasks.find? (fun t => t.id == d.id) with _ | ft
        · simp [handleDrop, h, hf] at hc
        · simp [handleDrop, h, hf] at hc
          rw [hc]
  · intro d ft hp hne hfind
    subst hp
    simp [handleDrop, hne, hfind]
  · intro t ht hid
    have ht' : t ∈ db.tasks.map
        (fun a => if a.id == id then applyTaskPatch ⟨none, none, some col, none, none⟩ a
          else a) := ht
    rcases List.mem_map.1 ht' with ⟨a, _, rfl⟩
    by_cases hc : a.id = id
    · have hct : (a.id == id) = true := beq_iff_eq.mpr hc
      simp [hct, applyTaskPatch]
    · have hcf : (a.id == id) = false := by simpa using hc
      rw [hcf] at hid
      simp at hid
      exact absurd hid hc
  · cases col <;> simp

/-- C4 counterexample: `fetchUserProfile` on a failing backend call emits
no user-visible toast at all (it only logs to the console), refuting "every
data-access function … surfaces a user-visible toast notification". -/
theorem C4_fetchUserProfile_no_toast :
    ((fetchUserProfile exDb "u1" (some "boom")).events.any Event.isToast = false)
    ∧ (fetchUserProfile exDb "u1" (some "boom")).result = none := by
  decide

/-- C4 (amended): every data-access function of the service layer except
`fetchUserProfile`, on a failing backend call, emits exactly one error
toast carrying the backend message and returns its null/empty sentinel
(`none`, `[]` or `false`) without propagating the error; `fetchUserProfile`
also returns its `none` sentinel but logs the message to the console
instead of toasting.  (The second `deleteProject` conjunct is its
second-step failure, after the task rows were already deleted.) -/
theorem C4_failure_toasts_and_sentinels (db : DB) (m s1 s2 s3 : String)
    (od odd : Option String) (gen : GenCols) (pp : ProjectPatch)
    (tp : TaskPatch) (up : UserProfilePatch) (st : Status) (pr : Priority) :
    fetchProjects db (some m) =
      ⟨db, [.toastError ("Error fetching projects: " ++ m)], []⟩
    ∧ createProject db s1 od s2 gen (some m) =
      ⟨db, [.toastError ("Error creating project: " ++ m)], none⟩
    ∧ updateProject db s1 pp (some m) =
      ⟨db, [.toastError ("Error updating project: " ++ m)], none⟩
    ∧ deleteProject db s1 (some m) od =
      ⟨db, [.toastError ("Error deleting project: " ++ m)], false⟩
    ∧ deleteProject db s1 none (some m) =
      ⟨{ db with tasks := db.tasks.filter (fun t => t.project_id != s1) },
        [.toastError ("Error deleting project: " ++ m)], false⟩
    ∧ fetchTasks db s1 (some m) =
      ⟨db, [.toastError ("Error fetching tasks: " ++ m)], []⟩
    ∧ createTask db s1 od st pr odd s2 s3 gen (some m) =
      ⟨db, [.toastError ("Error creating task: " ++ m)], none⟩
    ∧ updateTask db s1 tp (some m) =
      ⟨db, [.toastError ("Error updating task: " ++ m)], none⟩
    ∧ updateTaskStatus db s1 st (some m) =
      ⟨db, [.toastError ("Error updating task: " ++ m)], none⟩
    ∧ deleteTask db s1 (some m) =
      ⟨db, [.toastError ("Error deleting task: " ++ m)], false⟩
    ∧ fetchTeams db (some m) =
      ⟨db, [.toastError ("Error fetching teams: " ++ m)], []⟩
    ∧ createTeam db s1 od s2 gen (some m) =
      ⟨db, [.toastError ("Error creating team: " ++ m)], none⟩
    ∧ addTeamMember db s1 s2 s3 gen (some m) =
      ⟨db, [.toastError ("Error adding team member: " ++ m)], none⟩
    ∧ updateUserProfile db s1 up (some m) =
      ⟨db, [.toastError ("Error updating profile: " ++ m)], none⟩
    ∧ fetchTags db s1 (some m) =
      ⟨db, [.toastError ("Error fetching tags: " ++ m)], []⟩
    ∧ createTag db s1 s2 od s3 gen (some m) =
      ⟨db, [.toastError ("Error creating tag: " ++ m)], none⟩
    ∧ addTagToTask db s1 s2 gen (some m) =
      ⟨db, [.toastError ("Error adding tag to task: " ++ m)], none⟩
    ∧ removeTagFromTask db s1 s2 (some m) =
      ⟨db, [.toastError ("Error removing tag from task: " ++ m)], false⟩
    ∧ fetchComments db s1 (some m) =
      ⟨db, [.toastError ("Error fetching comments: " ++ m)], []⟩
    ∧ createComment db s1 s2 s3 gen (some m) =
      ⟨db, [.toastError ("Error creating comment: " ++ m)], none⟩
    ∧ addProjectMember db s1 s2 s3 gen (some m) =
      ⟨db, [.toastError ("Error adding member to project: " ++ m)], false⟩
    ∧ fetchProjectMembers db s1 (some m) =
      ⟨db, [.toastError ("Error fetching project members: " ++ m)], []⟩
    ∧ fetchUserProfile db s1 (some m) =
      ⟨db, [.consoleError ("Error fetching user profile: " ++ m)], none⟩ :=
  ⟨rfl, rfl, rfl, rfl, rfl, rfl, rfl, rfl, rfl, rfl, rfl, rfl,
    rfl, rfl, rfl, rfl, rfl, rfl, rfl, rfl, rfl, rfl, rfl⟩

/-- C5: on the Kanban board with an empty search term, the priority filter
set `{high}` yields exactly the tasks whose priority is high, and the full
filter set `{low, medium, high}` yields the same list as the empty filter
set, which is the unfiltered task list. -/
theorem C5_priority_filter (tasks : List Task) :
    filteredTasks "" ["high"] tasks =
      tasks.filter (fun t => t.priority == Priority.high)
    ∧ filteredTasks "" ["low", "medium", "high"] tasks =
      filteredTasks "" [] tasks
    ∧ filteredTasks "" [] tasks = tasks := by
  have hprio : ∀ (fs : List String) (t : Task), matchesPriority fs t =
      (fs.length == 0 || fs.contains (priorityName t.priority)) :=
    fun _ _ => rfl
  have hall : filteredTasks "" ["low", "medium", "high"] tasks = tasks := by
    refine List.filter_eq_self.mpr (fun t _ => ?_)
    rw [show matchesSearch "" t = true from rfl, Bool.true_and, hprio]
    cases ht : t.priority <;> decide
  have hempty : filteredTasks "" [] tasks = tasks :=
    List.filter_eq_self.mpr (fun t _ => rfl)
  refine ⟨?_, hall.trans hempty.symm, hempty⟩
  refine List.filter_congr (fun t _ => ?_)
  show (matchesSearch "" t && matchesPriority ["high"] t) =
    (t.priority == Priority.high)
  rw [show matchesSearch "" t = true from rfl, Bool.true_and, hprio]
  cases ht : t.priority <;> decide

/-- Preservation step for C6: one application-issued invitation write keeps
the "accepted implies timestamped" invariant. -/
theorem acceptedHasTs_applyInvWrite (table : List Invitation) (w : InvWrite)
    (h : acceptedHasTs table = true) :
    acceptedHasTs (applyInvWrite table w) = true := by
  cases w with
  | invite tid em r ib gen =>
    refine List.all_eq_true.mpr (fun i hi => ?_)
    rcases List.mem_cons.1 hi with rfl | hi'
    · rfl
    · exact List.all_eq_true.mp h i hi'
  | accept invId now =>
    refine List.all_eq_true.mpr (fun i hi => ?_)
    simp only [applyInvWrite, acceptUpdate] at hi
    rcases List.mem_map.1 hi with ⟨a, ha, rfl⟩
    by_cases hc : (a.id == invId) = true
    · simp [hc]
    · simp only [hc, Bool.false_eq_true, if_false]
      exact List.all_eq_true.mp h a ha
  | decline invId =>
    refine List.all_eq_true.mpr (fun i hi => ?_)
    simp only [applyInvWrite, declineUpdate] at hi
    rcases List.mem_map.1 hi with ⟨a, ha, rfl⟩
    by_cases hc : (a.id == invId) = true
    · simp [hc]
    · simp only [hc, Bool.false_eq_true, if_false]
      exact List.all_eq_true.mp h a ha

/-- C6: the only invitation writes the application issues are the pending
insert, the accept update (which sets the acceptance timestamp in the same
update) and the decline update, so any sequence of application-issued
invitation writes preserves "every invitation with status accepted has a
non-null acceptance timestamp". -/
theorem C6_accepted_has_timestamp (ws : List InvWrite) (table : List Invitation)
    (h : acceptedHasTs table = true) :
    acceptedHasTs (applyInvWrites table ws) = true := by
  induction ws generalizing table with
  | nil => exact h
  | cons w ws ih => exact ih _ (acceptedHasTs_applyInvWrite table w h)

/-- Witness for C6: starting from a pending invitation, accepting it leaves
every accepted invitation timestamped. -/
theorem C6_accepted_has_timestamp_witness :
    acceptedHasTs (applyInvWrites [exPendingInv]
      [InvWrite.accept "i1" "2025-05-01T00:00:00Z"]) = true :=
  C6_accepted_has_timestamp [InvWrite.accept "i1" "2025-05-01T00:00:00Z"]
    [exPendingInv] (by decide)

/-- C7: the project-detail realtime handler treats an UPDATE notification
as a positionwise replacement — the list afterwards has the same length and
its i-th entry is the notified row where the previous i-th entry's id
matches and the previous entry otherwise — and a DELETE notification
removes exactly the entries whose id equals the notified old id, keeping
the rest in order (a sublist of the previous list). -/
theorem C7_realtime_update_delete (prev : List Task) (row : Task)
    (oldId : String) :
    ((applyTaskChange prev (.update row)).length = prev.length
      ∧ ∀ i : Nat, (applyTaskChange prev (.update row))[i]? =
          (prev[i]?).map (fun t => if t.id == row.id then row else t))
    ∧ ((∀ t : Task, t ∈ applyTaskChange prev (.delete oldId) ↔
          (t ∈ prev ∧ t.id ≠ oldId))
      ∧ (applyTaskChange prev (.delete oldId)).Sublist prev) := by
  refine ⟨⟨?_, ?_⟩, ?_, ?_⟩
  · exact List.length_map prev _
  · intro i
    exact List.getElem?_map _ prev i
  · intro t
    simp [applyTaskChange, List.mem_filter, bne_iff_ne]
  · exact List.filter_sublist prev

/-- C8: a task appears in a Kanban column's rendered list exactly when it
is in the filtered list and its status is the column's status (so each
filtered task appears in exactly one of the four columns), and the four
column counts sum to the number of filtered tasks. -/
theorem C8_columns_partition (tasks : List Task) :
    (∀ t s, t ∈ columnTasks tasks s ↔ (t ∈ tasks ∧ t.status = s))
    ∧ (columnTasks tasks .todo).length + (columnTasks tasks .inProgress).length
        + (columnTasks tasks .review).length
        + (columnTasks tasks .completed).length = tasks.length := by
  constructor
  · intro t s
    simp [columnTasks, List.mem_filter]
  · induction tasks with
    | nil => rfl
    | cons a l ih =>
      simp only [columnTasks] at ih ⊢
      cases ha : a.status <;>
        simp [List.filter_cons, ha] <;> omega

/-- C9: accepting an invitation while signed in with an email different
from the invitation's performs no writes at all: `handleAccept` leaves the
backend state unchanged (no `team_members` insert, no invitation update)
and emits only the mismatch error toast. -/
theorem C9_handleAccept_email_mismatch (db : DB) (user : AuthUser)
    (inv : Invitation) (gen : GenCols) (memberErr updateErr : Option String)
    (now : String) (h : user.email ≠ some inv.email) :
    handleAccept db user inv gen memberErr updateErr now =
      ⟨db, [Event.toastError
        "This invitation was sent to a different email address"], ()⟩ := by
  unfold handleAccept
  rw [if_pos h]

/-- Witness for C9: a concrete signed-in user whose email differs from the
invitation's gets only the mismatch toast and no state change. -/
theorem C9_handleAccept_email_mismatch_witness :
    handleAccept exDb exUser exPendingInv exGen none none
      "2025-05-01T00:00:00Z" =
      ⟨exDb, [Event.toastError
        "This invitation was sent to a different email address"], ()⟩ :=
  C9_handleAccept_email_mismatch exDb exUser exPendingInv exGen none none
    "2025-05-01T00:00:00Z" (by decide)

end FlowBoard
